import Mathlib

set_option synthInstance.maxSize 2000
set_option maxRecDepth 100000

/-!
# Verification of the rib.gg match scraper (`rib_scraper.py`)

A shallow embedding of the parsing/reconciliation logic of the scraper:

* Python dictionaries are modelled as association lists (`List (κ × α)`)
  with first-occurrence lookup, in-place replacement on assignment, and
  append-at-end insertion — matching CPython's insertion-ordered dicts.
* JSON scalar values are modelled by `Val` (int, string, bool, null).
* Reading a missing key (`d[k]`, a Python `KeyError`) is modelled by a
  total lookup defaulting to `Val.vNull`; every theorem that depends on a
  lookup carries hypotheses placing it on the domain where the Python code
  does not raise.
* Fallible code paths (`AttributeError` on a parser whose `__init__`
  returned early, `TypeError` on indexing with `None`, `IndexError` on an
  out-of-range list index) are modelled with `Except PyError`.
* The mutation performed by `player_stats_data` on the shared economy
  dictionaries (`playerEcon.update(...)` / `del playerEcon[...]` acts on
  the objects stored in `self.form['matchDetails']['economies']`) and by
  `get_rounds` on the round dictionaries is modelled by explicit state
  passing: those functions return the updated payload alongside their
  result.
-/

/-- Scalar JSON values appearing in the match payload. -/
inductive Val where
  | vInt : Int → Val
  | vStr : String → Val
  | vBool : Bool → Val
  | vNull : Val
deriving DecidableEq, Repr, Inhabited

/-- Python truthiness for the scalar values we model: `0`, `""`, `False`
and `None` are falsy.  Used for `if (playerStats[j]['weaponId']):`. -/
def truthy : Val → Bool
  | .vInt n => decide (n ≠ 0)
  | .vStr s => decide (s ≠ "")
  | .vBool b => b
  | .vNull => false

/-- The Python exceptions that the modelled code paths can raise. -/
inductive PyError where
  | attributeError : PyError
  | typeError : PyError
  | indexError : PyError
deriving DecidableEq, Repr

/-- First-occurrence lookup in an association list: `d.get(k)` /
membership test for a Python dict. -/
def aget {κ α : Type} [DecidableEq κ] : List (κ × α) → κ → Option α
  | [], _ => none
  | (k0, v) :: rest, k => if k0 = k then some v else aget rest k

/-- Lookup defaulting to `Val.vNull`; models `d[k]` on the domain where
the key is present (a missing key would raise `KeyError` in Python). -/
def agetD {κ : Type} [DecidableEq κ] (d : List (κ × Val)) (k : κ) : Val :=
  (aget d k).getD Val.vNull

/-- Whether a key is present: `k in d`. -/
def hasKeyA {κ α : Type} [DecidableEq κ] (d : List (κ × α)) (k : κ) : Bool :=
  (aget d k).isSome

/-- Python dict assignment `d[k] = v`: replace the value in place if the
key exists (keeping its position), otherwise append the pair at the end. -/
def aset {κ α : Type} [DecidableEq κ] : List (κ × α) → κ → α → List (κ × α)
  | [], k, v => [(k, v)]
  | (k0, v0) :: rest, k, v =>
    if k0 = k then (k0, v) :: rest else (k0, v0) :: aset rest k v

/-- Python `base.update(upd)`: assign every pair of `upd` into `base`,
in `upd`'s iteration order. -/
def aupdate {κ α : Type} [DecidableEq κ] (base upd : List (κ × α)) : List (κ × α) :=
  upd.foldl (fun d p => aset d p.1 p.2) base

/-- Python `del d[k]`: remove the key (all occurrences; a well-formed
dict holds it at most once). -/
def adel {κ α : Type} [DecidableEq κ] (d : List (κ × α)) (k : κ) : List (κ × α) :=
  d.filter (fun p => p.1 ≠ k)

/-- A Python dict with string keys and scalar values: one raw
`playerStats` entry or one `matchDetails.economies` entry. -/
abbrev Dict := List (String × Val)

/-- An id→name lookup table (`get_ign_dict` / `get_agent_dict` /
`get_weapon_dict` / `get_region_dict` results). -/
abbrev Table := List (Val × Val)

/-- Build a Python dict from a list of `(id, name)` pairs by repeated
assignment (`table[id] = name`): later pairs overwrite earlier ones. -/
def buildTable (entries : List (Val × Val)) : Table :=
  entries.foldl (fun d p => aset d p.1 p.2) []

/-- `table[id]` with the `Val.vNull` default standing in for the
`KeyError` domain. -/
def tlookD (t : Table) (k : Val) : Val := (aget t k).getD Val.vNull

/-- The composite join key of a stat or economy record. -/
def statKey (d : Dict) : Val × Val := (agetD d "playerId", agetD d "roundNumber")

/-- The source's join condition:
`playerStats[j]['playerId'] == player['playerId'] and
 playerStats[j]['roundNumber'] == player['roundNumber']`. -/
def keyMatch (s e : Dict) : Prop :=
  agetD e "playerId" = agetD s "playerId" ∧ agetD e "roundNumber" = agetD s "roundNumber"

instance (s e : Dict) : Decidable (keyMatch s e) := by unfold keyMatch; infer_instance

/-- The merge-and-resolve step performed on a matched pair (source lines
298–311): `playerEcon.update(playerStats[j])` (economy fields as base,
stat fields override), then resolve `playerIgn` and `agent`, then —
only when `weaponId` is truthy — resolve `weaponName`, then delete the
three raw id fields. -/
def resolveRecord (ign agents weapons : Table) (s e : Dict) : Dict :=
  let m1 := aupdate e s
  let m2 := aset m1 "playerIgn" (tlookD ign (agetD m1 "playerId"))
  let m3 := aset m2 "agent" (tlookD agents (agetD m2 "agentId"))
  let m4 :=
    if truthy (agetD m3 "weaponId") then
      aset m3 "weaponName" (tlookD weapons (agetD m3 "weaponId"))
    else m3
  adel (adel (adel m4 "playerId") "agentId") "weaponId"

/-- One slot of the per-round economy window.  `avail e` models an entry
still present in the local working list `econWindow`; `used s e` models
an entry already popped by stat record `s` (the shared dict object it
points to has been rewritten to the merged record by the in-place
mutation). -/
inductive EconSlot where
  | avail : Dict → EconSlot
  | used : Dict → Dict → EconSlot
deriving DecidableEq, Repr

/-- The contents of the economy entries still in the working pool. -/
def availOf : List EconSlot → List Dict
  | [] => []
  | .avail e :: rest => e :: availOf rest
  | .used _ _ :: rest => availOf rest

/-- The stat/economy pairs consumed so far, in slot order. -/
def usedPairs : List EconSlot → List (Dict × Dict)
  | [] => []
  | .avail _ :: rest => usedPairs rest
  | .used s e :: rest => (s, e) :: usedPairs rest

/-- The current content of the shared dict object behind a slot: a
consumed entry has been rewritten in place to the merged record. -/
def slotContent (ign agents weapons : Table) : EconSlot → Dict
  | .avail e => e
  | .used s e => resolveRecord ign agents weapons s e

/-- Whether the working pool still holds an entry matching stat `s`. -/
def hasAvailMatch (s : Dict) (pool : List EconSlot) : Bool :=
  pool.any (fun sl => match sl with
    | .avail e => decide (keyMatch s e)
    | .used _ _ => false)

/-- `econWindow.pop(econWindow.index(player))` for the first entry of the
working pool matching stat `s`: returns the popped economy record and the
pool with that slot marked consumed. -/
def popMatch (s : Dict) : List EconSlot → Option (Dict × List EconSlot)
  | [] => none
  | .avail e :: rest =>
    if keyMatch s e then some (e, .used s e :: rest)
    else
      match popMatch s rest with
      | none => none
      | some (f, rest2) => some (f, .avail e :: rest2)
  | .used s0 e :: rest =>
    match popMatch s rest with
    | none => none
    | some (f, rest2) => some (f, .used s0 e :: rest2)

/-- The inner double loop of `player_stats_data` for one round window
(source lines 295–317): for each stat record in order, scan the working
economy pool for the first match; on a match, merge/resolve and route the
record into the team-1 or team-2 list by `teamNumber == 1`; otherwise
silently skip the stat record.  Returns the two team lists and the final
state of the window's slots. -/
def alignWindow (ign agents weapons : Table) :
    List Dict → List EconSlot → List Dict × List Dict × List EconSlot
  | [], pool => ([], [], pool)
  | s :: ss, pool =>
    match popMatch s pool with
    | none => alignWindow ign agents weapons ss pool
    | some (e, pool2) =>
      let r := resolveRecord ign agents weapons s e
      let rest := alignWindow ign agents weapons ss pool2
      if agetD r "teamNumber" = Val.vInt 1 then (r :: rest.1, rest.2.1, rest.2.2)
      else (rest.1, r :: rest.2.1, rest.2.2)

/-- The stat/economy pairs matched by `alignWindow`, in stat order. -/
def windowPairs : List Dict → List EconSlot → List (Dict × Dict)
  | [], _ => []
  | s :: ss, pool =>
    match popMatch s pool with
    | none => windowPairs ss pool
    | some (e, pool2) => (s, e) :: windowPairs ss pool2

/-- The final state of a window's slots after all stat records ran. -/
def windowFinal : List Dict → List EconSlot → List EconSlot
  | [], pool => pool
  | s :: ss, pool =>
    match popMatch s pool with
    | none => windowFinal ss pool
    | some (_, pool2) => windowFinal ss pool2

/-- A value stored in a round dictionary: either a scalar from the raw
payload, or the list of resolved player records written into the round by
`get_rounds` (`round['team1Players'] = playerData[0][num]`). -/
inductive RVal where
  | prim : Val → RVal
  | recs : List Dict → RVal
deriving DecidableEq, Repr, Inhabited

/-- A round dictionary. -/
abbrev RDict := List (String × RVal)

/-- One entry of `self.form['series']['matches']`, restricted to the
fields the scraper reads. -/
structure MatchEntry where
  id : Val
  mapName : Val
  startDate : Val
  seriesMatchNumber : Val
  patchId : Val
  winningTeamNumber : Val
  team1Score : Val
  team2Score : Val
  winCondition : Val
  players : List (Val × Val)
  rounds : List RDict
deriving DecidableEq, Repr, Inhabited

/-- `self.form['series']`, restricted to the fields the scraper reads.
`players` of each match holds the `(player['player']['id'],
player['player']['ign'])` pairs in list order. -/
structure SeriesInfo where
  parentEventName : Val
  eventName : Val
  startDate : Val
  eventRegionId : Val
  bestOf : Val
  stage : Val
  bracket : Val
  team1Name : Val
  team2Name : Val
  team1Score : Val
  team2Score : Val
  matchList : List MatchEntry
  playerStats : List Dict
deriving DecidableEq, Repr, Inhabited

/-- The parsed `__NEXT_DATA__` payload `self.form` (its `pageProps`
object), restricted to what the scraper reads.  The `content` reference
arrays are kept as `(id, name)` pair lists; `statusCode` models
`self.form.get('statusCode')`. -/
structure Form where
  matchId : Val
  series : SeriesInfo
  economies : List Dict
  weapons : List (Val × Val)
  agents : List (Val × Val)
  regions : List (Val × Val)
  statusCode : Option Val
deriving DecidableEq, Repr, Inhabited

/-- The linear scan for the current match
(`for num, match in enumerate(self.form['series']['matches']): if
match['id'] == self.match_id`). -/
def locateIndex (form : Form) : Option Nat :=
  form.series.matchList.findIdx? (fun m => m.id = form.matchId)

/-- The located match entry, when the scan succeeds. -/
def located (form : Form) : Option MatchEntry :=
  (locateIndex form).bind (fun i => form.series.matchList[i]?)

/-- `get_ign_dict`: build the player-id→ign dict of the located match. -/
def ignDictOf (m : MatchEntry) : Table := buildTable m.players

/-- `get_weapon_dict`. -/
def weaponDict (form : Form) : Table := buildTable form.weapons

/-- `get_agent_dict`. -/
def agentDict (form : Form) : Table := buildTable form.agents

/-- `get_region_dict`. -/
def regionDict (form : Form) : Table := buildTable form.regions

/-- `list(filter(lambda x: x['matchId']==self.match_id, playerStats))`. -/
def filteredStats (form : Form) : List Dict :=
  form.series.playerStats.filter (fun s => agetD s "matchId" = form.matchId)

/-- `numPlayers = max(len(ignDict),1)`. -/
def numPlayersOf (m : MatchEntry) : Nat := max (ignDictOf m).length 1

/-- The round windows `(playerStats[i:i+numPlayers],
economy[i:i+numPlayers])` for `i = 0, numPlayers, 2*numPlayers, ...`
while stat records remain.  Structural fuel makes the definition
kernel-evaluable; `windows` supplies fuel `stats.length`, enough for any
window size ≥ 1 (the source guarantees `numPlayers ≥ 1`).  On a final
partial window the source would raise `IndexError` at `playerStats[j]`;
here the slice truncates, and every theorem about full runs assumes
`numPlayers` divides the stat count. -/
def windowsFuel : Nat → Nat → List Dict → List Dict → List (List Dict × List Dict)
  | 0, _, _, _ => []
  | _, _, [], _ => []
  | fuel + 1, n, s :: ss, econ =>
    ((s :: ss).take n, econ.take n) ::
      windowsFuel fuel n ((s :: ss).drop n) (econ.drop n)

/-- The list of round windows of `player_stats_data`. -/
def windows (n : Nat) (stats econ : List Dict) : List (List Dict × List Dict) :=
  windowsFuel stats.length n stats econ

/-- `player_stats_data` (source lines 270–321).  Returns the two
per-round team lists `[team1Players, team2Players]` together with the
post-run contents of `self.form['matchDetails']['economies']` (the
matched entries were rewritten in place by the merge).  Fails with
`TypeError` when the match id is not in the series (the `None` index
inside `get_ign_dict`). -/
def player_stats_data (form : Form) :
    Except PyError ((List (List Dict) × List (List Dict)) × List Dict) :=
  match located form with
  | none => .error .typeError
  | some m =>
    let stats := filteredStats form
    let ign := ignDictOf m
    let n := numPlayersOf m
    let res := (windows n stats form.economies).map
      (fun w => alignWindow ign (agentDict form) (weaponDict form) w.1
        (w.2.map EconSlot.avail))
    let newEcon :=
      (res.map (fun r => r.2.2.map
        (slotContent ign (agentDict form) (weaponDict form)))).flatten
        ++ form.economies.drop stats.length
    .ok ((res.map (fun r => r.1), res.map (fun r => r.2.1)), newEcon)

/-- `if (playerData[0][num]): ... else: round['team1Players'] = None` —
a non-empty resolved list is stored as is, an empty one as `None`. -/
def toRVal (l : List Dict) : RVal :=
  if l.isEmpty then RVal.prim Val.vNull else RVal.recs l

/-- The augmentation loop of `get_rounds` (source lines 337–346): write
`team1Players` then `team2Players` into each round dict in order. -/
def augmentRounds : List RDict → List (List Dict) → List (List Dict) → List RDict
  | [], _, _ => []
  | r :: rs, t1s, t2s =>
    aset (aset r "team1Players" (toRVal (t1s.headD [])))
        "team2Players" (toRVal (t2s.headD []))
      :: augmentRounds rs t1s.tail t2s.tail

/-- The payload after `get_rounds` ran: the located match's round dicts
were rewritten in place, and the matched economy dicts were rewritten by
`player_stats_data`. -/
def setForm (form : Form) (i : Nat) (m : MatchEntry) (newRounds : List RDict)
    (newEcon : List Dict) : Form :=
  { form with
    economies := newEcon,
    series := { form.series with
      matchList := form.series.matchList.set i { m with rounds := newRounds } } }

/-- `get_rounds` (source lines 324–348): locate the match, run
`player_stats_data`, then attach `team1Players`/`team2Players` to every
round dict.  Fails with `TypeError` when the match id is absent
(`matches[None]`) and with `IndexError` when a round index exceeds the
number of produced windows (`playerData[0][num]`). -/
def get_rounds (form : Form) : Except PyError (List RDict × Form) :=
  match locateIndex form with
  | none => .error .typeError
  | some i =>
    match form.series.matchList[i]? with
    | none => .error .indexError
    | some m =>
      match player_stats_data form with
      | .error e => .error e
      | .ok ((t1s, t2s), newEcon) =>
        if m.rounds.length ≤ t1s.length ∧ m.rounds.length ≤ t2s.length then
          let newRounds := augmentRounds m.rounds t1s t2s
          .ok (newRounds, setForm form i m newRounds newEcon)
        else .error .indexError

/-- `get_match_info` (source lines 229–267): the metadata dict, in the
literal's insertion order.  Fails with `TypeError` when the match id is
absent from the series (`matches[None]`). -/
def get_match_info (form : Form) : Except PyError Dict :=
  match locateIndex form with
  | none => .error .typeError
  | some i =>
    match form.series.matchList[i]? with
    | none => .error .indexError
    | some m => .ok [
        ("parentEvent", form.series.parentEventName),
        ("eventName", form.series.eventName),
        ("eventTime", form.series.startDate),
        ("eventRegion", tlookD (regionDict form) form.series.eventRegionId),
        ("bestOf", form.series.bestOf),
        ("stage", form.series.stage),
        ("bracket", form.series.bracket),
        ("team1", form.series.team1Name),
        ("team2", form.series.team2Name),
        ("team1SeriesScore", form.series.team1Score),
        ("team2SeriesScore", form.series.team2Score),
        ("matchId", form.matchId),
        ("mapName", m.mapName),
        ("gameStartTime", m.startDate),
        ("seriesMatchNumber", m.seriesMatchNumber),
        ("patchId", m.patchId),
        ("seriesWinningTeamNumber", m.winningTeamNumber),
        ("team1MatchScore", m.team1Score),
        ("team2MatchScore", m.team2Score),
        ("seriesWinCondition", m.winCondition)]

/-- One CSV row. -/
abbrev Row := List RVal

/-- `list(matchData.values())`. -/
def metaRow (md : Dict) : Row := md.map (fun p => RVal.prim p.2)

/-- `list(matchData.keys()) + list(rounds[0].keys())`. -/
def headerRow (md : Dict) (r0 : RDict) : Row :=
  md.map (fun p => RVal.prim (Val.vStr p.1)) ++ r0.map (fun p => RVal.prim (Val.vStr p.1))

/-- `list(matchData.values()) + list(round.values())`. -/
def dataRow (md : Dict) (r : RDict) : Row :=
  md.map (fun p => RVal.prim p.2) ++ r.map (fun p => p.2)

/-- The state of a `jsonParser` object after `__init__`: `tossed` models
the early `return` on a failed fetch (HTTP 500 or missing
`__NEXT_DATA__` script), after which the instance has no `form`,
`match_id` or `addHeader` attributes. -/
inductive ParserState where
  | tossed : ParserState
  | ready : Form → Bool → ParserState
deriving DecidableEq, Repr

/-- `csv_rows` (source lines 394–416).  On a tossed parser the guard
`not self.form` itself raises `AttributeError` because `__init__`
returned before assigning `self.form`.  A payload carrying
`statusCode == 500` yields no rows.  Zero rounds yield a single
metadata-only row with no header; otherwise an optional header row is
followed by one row per round. -/
def csv_rows : ParserState → Except PyError (List Row)
  | .tossed => .error .attributeError
  | .ready form addHeader =>
    if form.statusCode = some (Val.vInt 500) then .ok []
    else
      match get_match_info form with
      | .error e => .error e
      | .ok md =>
        match get_rounds form with
        | .error e => .error e
        | .ok (rounds, _) =>
          if rounds.isEmpty then .ok [metaRow md]
          else .ok ((if addHeader then [headerRow md (rounds.headD [])] else [])
            ++ rounds.map (fun r => dataRow md r))

/-- What the external fetch of one match link can produce: an HTTP 500
response, a page without the embedded `__NEXT_DATA__` JSON, or a parsed
payload. -/
inductive FetchOutcome where
  | http500 : FetchOutcome
  | noScript : FetchOutcome
  | payload : Form → FetchOutcome
deriving DecidableEq, Repr

/-- `jsonParser.__init__` (source lines 186–227) as a function of the
fetch outcome: the two soft-failure paths return early, leaving a tossed
instance; otherwise the payload and the header flag are stored. -/
def jsonParserInit : FetchOutcome → Bool → ParserState
  | .http500, _ => .tossed
  | .noScript, _ => .tossed
  | .payload f, addHeader => .ready f addHeader

/-- `process_series` (source lines 115–146) over the fetch outcomes of a
series' sorted match links, threading `self.fileExists`: the first link
attempted while the flag is unset gets `addHeader=True` and the flag is
set immediately; the rows of all matches are concatenated.  There is no
`try`/`except` in the source, so any exception propagates and aborts the
series (and the rows gathered so far are never written). -/
def process_series : Bool → List FetchOutcome → Except PyError (List Row × Bool)
  | fileExists, [] => .ok ([], fileExists)
  | fileExists, o :: os =>
    match csv_rows (jsonParserInit o (!fileExists)) with
    | .error e => .error e
    | .ok rows =>
      match process_series true os with
      | .error e => .error e
      | .ok (rest, fe2) => .ok (rows ++ rest, fe2)

/-- The whole run (`get_series`): one `process_series` call per series,
threading `self.fileExists` across series; any uncaught exception aborts
the run. -/
def run_driver : Bool → List (List FetchOutcome) → Except PyError (List Row)
  | _, [] => .ok []
  | fileExists, s :: ss =>
    match process_series fileExists s with
    | .error e => .error e
    | .ok (rows, fe2) =>
      match run_driver fe2 ss with
      | .error e => .error e
      | .ok rest => .ok (rows ++ rest)

/-- `x[x.rfind('=')+1:]`: the sort key of a match link — the substring
after the last `'='`, or the whole string when there is none.  Links are
modelled as character lists so that everything kernel-evaluates. -/
def afterLastEq (s : List Char) : List Char :=
  (s.reverse.takeWhile (fun c => c ≠ '=')).reverse

/-- Python string `<=`: lexicographic comparison by code point, shorter
prefix first. -/
def lexLE : List Char → List Char → Bool
  | [], _ => true
  | _ :: _, [] => false
  | a :: as, b :: bs => if a = b then lexLE as bs else decide (a < b)

/-- The comparison used by `map_links.sort(key=lambda x: x[x.rfind('=')+1:])`:
keys are compared as strings. -/
def linkRel (a b : List Char) : Prop := lexLE (afterLastEq a) (afterLastEq b) = true

instance : DecidableRel linkRel := fun a b => by unfold linkRel; infer_instance

/-- `map_links.sort(...)` — a stable sort by the string key; insertion
sort has the same stable ascending semantics as Python's `list.sort`. -/
def sortLinks (links : List (List Char)) : List (List Char) :=
  List.insertionSort linkRel links

instance {ε α : Type} [DecidableEq ε] [DecidableEq α] : DecidableEq (Except ε α) := fun a b =>
  match a, b with
  | .error e1, .error e2 =>
    if h : e1 = e2 then .isTrue (by rw [h]) else .isFalse (by simp [h])
  | .error _, .ok _ => .isFalse (by simp)
  | .ok _, .error _ => .isFalse (by simp)
  | .ok v1, .ok v2 =>
    if h : v1 = v2 then .isTrue (by rw [h]) else .isFalse (by simp [h])

/-- A concrete two-player, two-round match payload used to evaluate the
model on explicit inputs. -/
def egStat (pid rnd agentId wid team kills : Int) : Dict :=
  [("matchId", Val.vInt 7), ("playerId", Val.vInt pid), ("roundNumber", Val.vInt rnd),
   ("agentId", Val.vInt agentId), ("weaponId", Val.vInt wid),
   ("teamNumber", Val.vInt team), ("kills", Val.vInt kills)]

/-- A concrete economy record. -/
def egEcon (pid rnd loadout : Int) : Dict :=
  [("playerId", Val.vInt pid), ("roundNumber", Val.vInt rnd),
   ("loadoutValue", Val.vInt loadout)]

/-- A concrete raw round dict. -/
def egRound (num winner : Int) : RDict :=
  [("id", RVal.prim (Val.vInt (100 + num))), ("roundNumber", RVal.prim (Val.vInt num)),
   ("winningTeamNumber", RVal.prim (Val.vInt winner))]

/-- The concrete match entry of the example payload. -/
def egMatchEntry : MatchEntry :=
  { id := Val.vInt 7, mapName := Val.vStr "Ascent", startDate := Val.vStr "2021-06-01",
    seriesMatchNumber := Val.vInt 1, patchId := Val.vInt 30,
    winningTeamNumber := Val.vInt 1, team1Score := Val.vInt 13, team2Score := Val.vInt 7,
    winCondition := Val.vStr "elimination",
    players := [(Val.vInt 1, Val.vStr "Alice"), (Val.vInt 2, Val.vStr "Bob")],
    rounds := [egRound 1 2, egRound 2 1] }

/-- The concrete example payload: two players, two rounds, stats and
economies aligned one-to-one. -/
def egForm : Form :=
  { matchId := Val.vInt 7,
    series := {
      parentEventName := Val.vStr "VCT", eventName := Val.vStr "Finals",
      startDate := Val.vStr "2021-06-01", eventRegionId := Val.vInt 5,
      bestOf := Val.vInt 3, stage := Val.vStr "Playoffs", bracket := Val.vStr "Upper",
      team1Name := Val.vStr "TeamA", team2Name := Val.vStr "TeamB",
      team1Score := Val.vInt 2, team2Score := Val.vInt 1,
      matchList := [egMatchEntry],
      playerStats := [egStat 1 1 10 0 1 2, egStat 2 1 11 20 2 1,
        egStat 1 2 10 20 1 3, egStat 2 2 11 0 2 0] },
    economies := [egEcon 1 1 800, egEcon 2 1 800, egEcon 1 2 3900, egEcon 2 2 4200],
    weapons := [(Val.vInt 20, Val.vStr "Vandal")],
    agents := [(Val.vInt 10, Val.vStr "Jett"), (Val.vInt 11, Val.vStr "Sova")],
    regions := [(Val.vInt 5, Val.vStr "NA")],
    statusCode := none }

/-- A payload whose located match has zero rounds (a successful parse
that produces a single metadata-only row and no header). -/
def egZeroForm : Form :=
  { matchId := Val.vInt 8,
    series := {
      parentEventName := Val.vStr "VCT0", eventName := Val.vStr "Qualifier",
      startDate := Val.vStr "2021-05-01", eventRegionId := Val.vInt 5,
      bestOf := Val.vInt 1, stage := Val.vStr "Groups", bracket := Val.vStr "Lower",
      team1Name := Val.vStr "TeamC", team2Name := Val.vStr "TeamD",
      team1Score := Val.vInt 1, team2Score := Val.vInt 0,
      matchList := [{ egMatchEntry with id := Val.vInt 8, rounds := [] }],
      playerStats := [] },
    economies := [],
    weapons := [], agents := [], regions := [(Val.vInt 5, Val.vStr "NA")],
    statusCode := none }

/-- A payload carrying `statusCode = 500` (the one soft-failure path that
`csv_rows` actually handles by returning zero rows). -/
def egSkipForm : Form :=
  { matchId := Val.vInt 9,
    series := {
      parentEventName := Val.vStr "VCTS", eventName := Val.vStr "Skipped",
      startDate := Val.vStr "2021-05-02", eventRegionId := Val.vInt 5,
      bestOf := Val.vInt 1, stage := Val.vStr "Groups", bracket := Val.vStr "Lower",
      team1Name := Val.vStr "TeamE", team2Name := Val.vStr "TeamF",
      team1Score := Val.vInt 0, team2Score := Val.vInt 1,
      matchList := [], playerStats := [] },
    economies := [],
    weapons := [], agents := [], regions := [],
    statusCode := some (Val.vInt 500) }

/-- The computed result of `player_stats_data` on the example payload,
used to instantiate theorems at a concrete input. -/
def egPSD : (List (List Dict) × List (List Dict)) × List Dict :=
  (player_stats_data egForm).toOption.getD (([], []), [])


theorem aget_aset_self {κ α : Type} [DecidableEq κ] (d : List (κ × α)) (k : κ) (v : α) :
    aget (aset d k v) k = some v := by
  induction d with
  | nil => simp [aset, aget]
  | cons p rest ih =>
    obtain ⟨k0, v0⟩ := p
    by_cases h : k0 = k
    · simp [aset, h, aget]
    · simp [aset, h, aget, ih]

theorem aget_aset_ne {κ α : Type} [DecidableEq κ] (d : List (κ × α)) (k k' : κ) (v : α)
    (h : k' ≠ k) : aget (aset d k v) k' = aget d k' := by
  have h2 : k ≠ k' := Ne.symm h
  induction d with
  | nil => simp [aset, aget, h2]
  | cons p rest ih =>
    obtain ⟨k0, v0⟩ := p
    by_cases h0 : k0 = k
    · subst h0
      simp [aset, aget, h2]
    · simp [aset, h0, aget, ih]

theorem aget_adel_self {κ α : Type} [DecidableEq κ] (d : List (κ × α)) (k : κ) :
    aget (adel d k) k = none := by
  induction d with
  | nil => simp [adel, aget]
  | cons p rest ih =>
    obtain ⟨k0, v0⟩ := p
    by_cases h0 : k0 = k
    · subst h0
      simpa [adel] using ih
    · simp only [adel, decide_not] at ih ⊢
      simp only [List.filter_cons] at ih ⊢
      simp [h0, aget, ih]

theorem aget_adel_ne {κ α : Type} [DecidableEq κ] (d : List (κ × α)) (k k' : κ)
    (h : k' ≠ k) : aget (adel d k) k' = aget d k' := by
  induction d with
  | nil => simp [adel, aget]
  | cons p rest ih =>
    obtain ⟨k0, v0⟩ := p
    by_cases h0 : k0 = k
    · subst h0
      have hne : k0 ≠ k' := Ne.symm h
      simp only [adel, decide_not] at ih ⊢
      simp only [List.filter_cons] at ih ⊢
      simp [aget, hne, ih]
    · by_cases h1 : k0 = k'
      · subst h1
        simp only [adel, decide_not] at ih ⊢
        simp only [List.filter_cons] at ih ⊢
        simp [h0, aget]
      · simp only [adel, decide_not] at ih ⊢
        simp only [List.filter_cons] at ih ⊢
        simp [h0, aget, h1, ih]

theorem aget_eq_none_of_not_mem {κ α : Type} [DecidableEq κ] (d : List (κ × α)) (k : κ)
    (h : k ∉ d.map Prod.fst) : aget d k = none := by
  induction d with
  | nil => simp [aget]
  | cons p rest ih =>
    obtain ⟨k0, v0⟩ := p
    simp only [List.map_cons, List.mem_cons] at h
    push_neg at h
    have hne : k0 ≠ k := Ne.symm h.1
    simp [aget, hne, ih h.2]

theorem aget_aupdate {κ α : Type} [DecidableEq κ] (base upd : List (κ × α)) (k : κ)
    (h : (upd.map Prod.fst).Nodup) :
    aget (aupdate base upd) k =
      if hasKeyA upd k then aget upd k else aget base k := by
  induction upd generalizing base with
  | nil => simp [aupdate, hasKeyA, aget]
  | cons p rest ih =>
    obtain ⟨k1, v1⟩ := p
    simp only [List.map_cons, List.nodup_cons] at h
    have hstep : aupdate base ((k1, v1) :: rest) = aupdate (aset base k1 v1) rest := rfl
    rw [hstep, ih _ h.2]
    by_cases hk : k1 = k
    · subst hk
      have hrest : aget rest k1 = none := aget_eq_none_of_not_mem _ _ h.1
      simp [hasKeyA, aget, hrest, aget_aset_self]
    · have hget : aget ((k1, v1) :: rest) k = aget rest k := by simp [aget, hk]
      have hkey : hasKeyA ((k1, v1) :: rest) k = hasKeyA rest k := by
        simp [hasKeyA, hget]
      rw [hkey, hget, aget_aset_ne _ _ _ _ (Ne.symm hk)]

theorem hasKeyA_iff_aget {κ α : Type} [DecidableEq κ] (d : List (κ × α)) (k : κ) :
    hasKeyA d k = true ↔ ∃ v, aget d k = some v := by
  unfold hasKeyA
  cases aget d k <;> simp

theorem availOf_append (a b : List EconSlot) :
    availOf (a ++ b) = availOf a ++ availOf b := by
  induction a with
  | nil => simp [availOf]
  | cons sl rest ih => cases sl <;> simp [availOf, ih]

theorem keyMatch_both {s s' e : Dict} (h1 : keyMatch s e) (h2 : keyMatch s' e) :
    statKey s = statKey s' := by
  unfold keyMatch at h1 h2
  unfold statKey
  rw [← h1.1, ← h1.2, ← h2.1, ← h2.2]

theorem popMatch_some {s : Dict} {pool : List EconSlot} {e : Dict} {pool2 : List EconSlot}
    (h : popMatch s pool = some (e, pool2)) :
    keyMatch s e ∧ ∃ l1 l2, pool = l1 ++ EconSlot.avail e :: l2 ∧
      pool2 = l1 ++ EconSlot.used s e :: l2 := by
  induction pool generalizing pool2 with
  | nil => simp [popMatch] at h
  | cons sl rest ih =>
    cases sl with
    | avail e0 =>
      by_cases hm : keyMatch s e0
      · simp only [popMatch, if_pos hm, Option.some.injEq, Prod.mk.injEq] at h
        obtain ⟨rfl, rfl⟩ := h
        exact ⟨hm, [], rest, rfl, rfl⟩
      · simp only [popMatch, if_neg hm] at h
        cases hrec : popMatch s rest with
        | none => rw [hrec] at h; exact absurd h (by simp)
        | some p =>
          obtain ⟨f, rest2⟩ := p
          rw [hrec] at h
          simp only [Option.some.injEq, Prod.mk.injEq] at h
          obtain ⟨rfl, rfl⟩ := h
          obtain ⟨hk, l1, l2, rfl, rfl⟩ := ih hrec
          exact ⟨hk, EconSlot.avail e0 :: l1, l2, rfl, rfl⟩
    | used s0 e0 =>
      simp only [popMatch] at h
      cases hrec : popMatch s rest with
      | none => rw [hrec] at h; exact absurd h (by simp)
      | some p =>
        obtain ⟨f, rest2⟩ := p
        rw [hrec] at h
        simp only [Option.some.injEq, Prod.mk.injEq] at h
        obtain ⟨rfl, rfl⟩ := h
        obtain ⟨hk, l1, l2, rfl, rfl⟩ := ih hrec
        exact ⟨hk, EconSlot.used s0 e0 :: l1, l2, rfl, rfl⟩

theorem hasAvailMatch_cons (s : Dict) (sl : EconSlot) (rest : List EconSlot) :
    hasAvailMatch s (sl :: rest) =
      ((match sl with
        | EconSlot.avail e => decide (keyMatch s e)
        | EconSlot.used _ _ => false) || hasAvailMatch s rest) := rfl

theorem popMatch_eq_none {s : Dict} {pool : List EconSlot} :
    popMatch s pool = none ↔ hasAvailMatch s pool = false := by
  induction pool with
  | nil => simp [popMatch, hasAvailMatch]
  | cons sl rest ih =>
    cases sl with
    | avail e0 =>
      by_cases hm : keyMatch s e0
      · simp [popMatch, hm, hasAvailMatch]
      · cases hrec : popMatch s rest with
        | none =>
          have hrest : hasAvailMatch s rest = false := ih.mp hrec
          simp [popMatch, hm, hrec, hasAvailMatch_cons, hrest]
        | some p =>
          have hrest : hasAvailMatch s rest = true := by
            cases hb : hasAvailMatch s rest with
            | false => rw [ih.mpr hb] at hrec; exact absurd hrec (by simp)
            | true => rfl
          simp [popMatch, hm, hrec, hasAvailMatch_cons, hrest]
    | used s0 e0 =>
      cases hrec : popMatch s rest with
      | none =>
        have hrest : hasAvailMatch s rest = false := ih.mp hrec
        simp [popMatch, hrec, hasAvailMatch_cons, hrest]
      | some p =>
        have hrest : hasAvailMatch s rest = true := by
          cases hb : hasAvailMatch s rest with
          | false => rw [ih.mpr hb] at hrec; exact absurd hrec (by simp)
          | true => rfl
        simp [popMatch, hrec, hasAvailMatch_cons, hrest]

theorem availOf_popMatch {s : Dict} {pool : List EconSlot} {e : Dict} {pool2 : List EconSlot}
    (h : popMatch s pool = some (e, pool2)) :
    (availOf pool).Perm (e :: availOf pool2) := by
  obtain ⟨-, l1, l2, rfl, rfl⟩ := popMatch_some h
  rw [availOf_append, availOf_append]
  simp only [availOf]
  exact List.perm_middle.trans (by rfl)

theorem hasAvailMatch_popMatch {s s' : Dict} {pool : List EconSlot} {e : Dict}
    {pool2 : List EconSlot} (hne : statKey s' ≠ statKey s)
    (h : popMatch s pool = some (e, pool2)) :
    hasAvailMatch s' pool2 = hasAvailMatch s' pool := by
  obtain ⟨hm, l1, l2, rfl, rfl⟩ := popMatch_some h
  have hkey : decide (keyMatch s' e) = false := by
    cases hd : decide (keyMatch s' e) with
    | false => rfl
    | true =>
      have : keyMatch s' e := of_decide_eq_true hd
      exact absurd (keyMatch_both hm this).symm hne
  simp [hasAvailMatch, List.any_append, List.any_cons, hkey]

theorem windowPairs_conservation (ss : List Dict) (pool : List EconSlot) :
    (((windowPairs ss pool).map Prod.snd) ++ availOf (windowFinal ss pool)).Perm
      (availOf pool) := by
  induction ss generalizing pool with
  | nil => simp [windowPairs, windowFinal]
  | cons s rest ih =>
    cases hrec : popMatch s pool with
    | none => simpa [windowPairs, windowFinal, hrec] using ih pool
    | some p =>
      obtain ⟨e, pool2⟩ := p
      simp only [windowPairs, windowFinal, hrec, List.map_cons, List.cons_append]
      exact ((ih pool2).cons e).trans (availOf_popMatch hrec).symm

theorem windowPairs_fst_eq_filter (ss : List Dict) (pool : List EconSlot)
    (hkeys : ss.Pairwise (fun a b => statKey a ≠ statKey b)) :
    (windowPairs ss pool).map Prod.fst = ss.filter (fun s => hasAvailMatch s pool) := by
  induction ss generalizing pool with
  | nil => simp [windowPairs]
  | cons s rest ih =>
    obtain ⟨hhead, htail⟩ := List.pairwise_cons.mp hkeys
    cases hrec : popMatch s pool with
    | none =>
      have hav : hasAvailMatch s pool = false := popMatch_eq_none.mp hrec
      simp only [windowPairs, hrec, List.filter_cons, hav]
      simpa using ih pool htail
    | some p =>
      obtain ⟨e, pool2⟩ := p
      have hav : hasAvailMatch s pool = true := by
        cases hb : hasAvailMatch s pool with
        | false => rw [popMatch_eq_none.mpr hb] at hrec; exact absurd hrec (by simp)
        | true => rfl
      have hcongr : rest.filter (fun s' => hasAvailMatch s' pool2)
          = rest.filter (fun s' => hasAvailMatch s' pool) :=
        List.filter_congr (fun s' hs' =>
          hasAvailMatch_popMatch (Ne.symm (hhead s' hs')) hrec)
      simp only [windowPairs, hrec, List.map_cons, List.filter_cons, hav]
      rw [ih pool2 htail, hcongr]
      simp

theorem pairwise_count_filter (ss : List Dict) (p : Dict → Bool) (s : Dict)
    (hkeys : ss.Pairwise (fun a b => statKey a ≠ statKey b)) (hmem : s ∈ ss) :
    (ss.filter p).count s = if p s then 1 else 0 := by
  induction ss with
  | nil => simp at hmem
  | cons a rest ih =>
    obtain ⟨hhead, htail⟩ := List.pairwise_cons.mp hkeys
    rcases List.mem_cons.mp hmem with rfl | hmem2
    · have hnot : s ∉ rest := fun hc => (hhead s hc) rfl
      have hcount : rest.count s = 0 := List.count_eq_zero.mpr hnot
      have hfcount : (rest.filter p).count s = 0 :=
        List.count_eq_zero.mpr (fun hc => hnot (List.mem_of_mem_filter hc))
      by_cases hp : p s
      · simp [List.filter_cons, hp, List.count_cons_self, hfcount]
      · simp [List.filter_cons, hp, hfcount]
    · have hne : s ≠ a := by
        intro hc
        exact (hhead s hmem2) (by rw [hc])
      by_cases hp : p a
      · simp [List.filter_cons, hp, List.count_cons_of_ne hne, ih htail hmem2]
      · simp [List.filter_cons, hp, ih htail hmem2]

theorem alignWindow_characterization (ign agents weapons : Table) (ss : List Dict)
    (pool : List EconSlot) :
    alignWindow ign agents weapons ss pool =
      (((windowPairs ss pool).map
          (fun p => resolveRecord ign agents weapons p.1 p.2)).filter
          (fun r => decide (agetD r "teamNumber" = Val.vInt 1)),
       ((windowPairs ss pool).map
          (fun p => resolveRecord ign agents weapons p.1 p.2)).filter
          (fun r => !decide (agetD r "teamNumber" = Val.vInt 1)),
       windowFinal ss pool) := by
  induction ss generalizing pool with
  | nil => simp [alignWindow, windowPairs, windowFinal]
  | cons s rest ih =>
    cases hrec : popMatch s pool with
    | none => simp [alignWindow, windowPairs, windowFinal, hrec, ih pool]
    | some p =>
      obtain ⟨e, pool2⟩ := p
      by_cases ht : agetD (resolveRecord ign agents weapons s e) "teamNumber" = Val.vInt 1
      · simp [alignWindow, windowPairs, windowFinal, hrec, ih pool2, ht,
          List.filter_cons]
      · simp [alignWindow, windowPairs, windowFinal, hrec, ih pool2, ht,
          List.filter_cons]

theorem length_filter_add_length_filter_not {α : Type} (l : List α) (p : α → Bool) :
    (l.filter p).length + (l.filter (fun x => !p x)).length = l.length := by
  induction l with
  | nil => simp
  | cons a rest ih =>
    by_cases hp : p a
    · simp [List.filter_cons, hp, ← ih]
      omega
    · simp [List.filter_cons, hp, ← ih]
      omega

theorem length_augmentRounds (rs : List RDict) (t1s t2s : List (List Dict)) :
    (augmentRounds rs t1s t2s).length = rs.length := by
  induction rs generalizing t1s t2s with
  | nil => simp [augmentRounds]
  | cons r rest ih => simp [augmentRounds, ih]

theorem headD_eq_getD_zero {α : Type} (l : List α) (d : α) : l.headD d = l.getD 0 d := by
  cases l <;> simp

theorem tail_getD {α : Type} (l : List α) (n : Nat) (d : α) :
    l.tail.getD n d = l.getD (n + 1) d := by
  cases l <;> simp [List.getD]

theorem getD_augmentRounds (rs : List RDict) (t1s t2s : List (List Dict)) (n : Nat)
    (hn : n < rs.length) :
    (augmentRounds rs t1s t2s).getD n [] =
      aset (aset (rs.getD n []) "team1Players" (toRVal (t1s.getD n [])))
        "team2Players" (toRVal (t2s.getD n [])) := by
  induction rs generalizing t1s t2s n with
  | nil => simp at hn
  | cons r rest ih =>
    cases n with
    | zero => cases t1s <;> cases t2s <;> simp [augmentRounds, List.getD]
    | succ n =>
      have hn2 : n < rest.length := by simpa using hn
      simp only [augmentRounds, List.getD_cons_succ]
      rw [ih _ _ _ hn2, tail_getD, tail_getD]

theorem located_eq {form : Form} {i : Nat} {m : MatchEntry}
    (h1 : locateIndex form = some i) (h2 : form.series.matchList[i]? = some m) :
    located form = some m := by
  unfold located
  rw [h1]
  exact h2

theorem player_stats_data_isOk {form : Form} {m : MatchEntry}
    (hl : located form = some m) :
    ∃ t1s t2s newEcon, player_stats_data form = .ok ((t1s, t2s), newEcon) := by
  unfold player_stats_data
  rw [hl]
  exact ⟨_, _, _, rfl⟩

theorem get_rounds_eq {form : Form} {i : Nat} {m : MatchEntry}
    {t1s t2s : List (List Dict)} {newEcon : List Dict}
    (h1 : locateIndex form = some i) (h2 : form.series.matchList[i]? = some m)
    (hps : player_stats_data form = .ok ((t1s, t2s), newEcon))
    (hl1 : m.rounds.length ≤ t1s.length) (hl2 : m.rounds.length ≤ t2s.length) :
    get_rounds form = .ok (augmentRounds m.rounds t1s t2s,
      setForm form i m (augmentRounds m.rounds t1s t2s) newEcon) := by
  unfold get_rounds
  simp only [h1, h2, hps]
  rw [if_pos ⟨hl1, hl2⟩]

theorem get_match_info_eq {form : Form} {i : Nat} {m : MatchEntry}
    (h1 : locateIndex form = some i) (h2 : form.series.matchList[i]? = some m) :
    get_match_info form = .ok [
      ("parentEvent", form.series.parentEventName),
      ("eventName", form.series.eventName),
      ("eventTime", form.series.startDate),
      ("eventRegion", tlookD (regionDict form) form.series.eventRegionId),
      ("bestOf", form.series.bestOf),
      ("stage", form.series.stage),
      ("bracket", form.series.bracket),
      ("team1", form.series.team1Name),
      ("team2", form.series.team2Name),
      ("team1SeriesScore", form.series.team1Score),
      ("team2SeriesScore", form.series.team2Score),
      ("matchId", form.matchId),
      ("mapName", m.mapName),
      ("gameStartTime", m.startDate),
      ("seriesMatchNumber", m.seriesMatchNumber),
      ("patchId", m.patchId),
      ("seriesWinningTeamNumber", m.winningTeamNumber),
      ("team1MatchScore", m.team1Score),
      ("team2MatchScore", m.team2Score),
      ("seriesWinCondition", m.winCondition)] := by
  unfold get_match_info
  simp only [h1, h2]

/-- C1: for a well-formed payload (match located, stat count covering all
rounds), `get_rounds` returns exactly `len(rounds)` round records — one
per entry of the located match's rounds list — and every returned record
has both keys `team1Players` and `team2Players` present, bound to the
round's resolved player list when that list is non-empty and to an
explicit `None` when it is empty, never a missing key. -/
theorem c1_get_rounds_shape (form : Form) (i : Nat) (m : MatchEntry)
    (t1s t2s : List (List Dict)) (newEcon : List Dict)
    (h1 : locateIndex form = some i)
    (h2 : form.series.matchList[i]? = some m)
    (hps : player_stats_data form = .ok ((t1s, t2s), newEcon))
    (hl1 : m.rounds.length ≤ t1s.length)
    (hl2 : m.rounds.length ≤ t2s.length) :
    get_rounds form = .ok (augmentRounds m.rounds t1s t2s,
        setForm form i m (augmentRounds m.rounds t1s t2s) newEcon)
    ∧ (augmentRounds m.rounds t1s t2s).length = m.rounds.length
    ∧ ∀ n, n < m.rounds.length →
        aget ((augmentRounds m.rounds t1s t2s).getD n []) "team1Players"
          = some (if (t1s.getD n []).isEmpty then RVal.prim Val.vNull
              else RVal.recs (t1s.getD n []))
        ∧ aget ((augmentRounds m.rounds t1s t2s).getD n []) "team2Players"
          = some (if (t2s.getD n []).isEmpty then RVal.prim Val.vNull
              else RVal.recs (t2s.getD n [])) := by
  refine ⟨get_rounds_eq h1 h2 hps hl1 hl2, length_augmentRounds _ _ _, ?_⟩
  intro n hn
  rw [getD_augmentRounds _ _ _ _ hn]
  constructor
  · rw [aget_aset_ne _ _ _ _ (by decide), aget_aset_self]
    rfl
  · rw [aget_aset_self]
    rfl

theorem c1_get_rounds_shape_witness :
    locateIndex egForm = some 0
    ∧ egForm.series.matchList[0]? = some egMatchEntry
    ∧ player_stats_data egForm = .ok ((egPSD.1.1, egPSD.1.2), egPSD.2)
    ∧ egMatchEntry.rounds.length ≤ egPSD.1.1.length
    ∧ egMatchEntry.rounds.length ≤ egPSD.1.2.length
    ∧ (aget ((augmentRounds egMatchEntry.rounds egPSD.1.1 egPSD.1.2).getD 0 [])
          "team1Players"
        = some (if (egPSD.1.1.getD 0 []).isEmpty then RVal.prim Val.vNull
            else RVal.recs (egPSD.1.1.getD 0 []))) :=
  ⟨by decide, by decide, by decide, by decide, by decide,
    ((c1_get_rounds_shape egForm 0 egMatchEntry egPSD.1.1 egPSD.1.2 egPSD.2
      (by decide) (by decide) (by decide) (by decide) (by decide)).2.2 0
      (by decide)).1⟩

theorem availOf_map_avail (econ : List Dict) :
    availOf (econ.map EconSlot.avail) = econ := by
  induction econ with
  | nil => rfl
  | cons e rest ih => simp [availOf, ih]

/-- C2: the join is a removal-join.  Over one round window started on a
fresh economy pool: (a) consumed economy records plus the untouched
remainder of the pool are a permutation of the original window — no
economy record is consumed twice; (b) when the stat records of the
window carry pairwise-distinct `(playerId, roundNumber)` keys, every
stat record that has a matching economy record in the window is matched
exactly once — not zero times and not twice; (c) every matched pair
produces exactly one record in the resolved output (split between the
two team lists). -/
theorem c2_removal_join (ign agents weapons : Table) (ss econ : List Dict)
    (hkeys : ss.Pairwise (fun a b => statKey a ≠ statKey b)) :
    (((windowPairs ss (econ.map EconSlot.avail)).map Prod.snd)
        ++ availOf (windowFinal ss (econ.map EconSlot.avail))).Perm econ
    ∧ (∀ s ∈ ss, ((windowPairs ss (econ.map EconSlot.avail)).map Prod.fst).count s
        = if hasAvailMatch s (econ.map EconSlot.avail) then 1 else 0)
    ∧ (alignWindow ign agents weapons ss (econ.map EconSlot.avail)).1.length
        + (alignWindow ign agents weapons ss (econ.map EconSlot.avail)).2.1.length
        = (windowPairs ss (econ.map EconSlot.avail)).length := by
  refine ⟨?_, ?_, ?_⟩
  · have h := windowPairs_conservation ss (econ.map EconSlot.avail)
    rwa [availOf_map_avail] at h
  · intro s hs
    rw [windowPairs_fst_eq_filter _ _ hkeys]
    exact pairwise_count_filter _ _ _ hkeys hs
  · rw [alignWindow_characterization]
    simp only []
    rw [length_filter_add_length_filter_not
      ((windowPairs ss (econ.map EconSlot.avail)).map
        (fun p => resolveRecord ign agents weapons p.1 p.2)) _]
    simp

theorem c2_removal_join_witness :
    ([egStat 1 1 10 0 1 2, egStat 2 1 11 20 2 1] : List Dict).Pairwise
        (fun a b => statKey a ≠ statKey b)
    ∧ (((windowPairs [egStat 1 1 10 0 1 2, egStat 2 1 11 20 2 1]
          ([egEcon 1 1 800, egEcon 2 1 800].map EconSlot.avail)).map Prod.snd)
        ++ availOf (windowFinal [egStat 1 1 10 0 1 2, egStat 2 1 11 20 2 1]
          ([egEcon 1 1 800, egEcon 2 1 800].map EconSlot.avail))).Perm
        [egEcon 1 1 800, egEcon 2 1 800]
    ∧ ((windowPairs [egStat 1 1 10 0 1 2, egStat 2 1 11 20 2 1]
          ([egEcon 1 1 800, egEcon 2 1 800].map EconSlot.avail)).map Prod.fst).count
        (egStat 1 1 10 0 1 2)
        = if hasAvailMatch (egStat 1 1 10 0 1 2)
            ([egEcon 1 1 800, egEcon 2 1 800].map EconSlot.avail) then 1 else 0 := by
  refine ⟨by decide, ?_, ?_⟩
  · exact (c2_removal_join [] [] [] [egStat 1 1 10 0 1 2, egStat 2 1 11 20 2 1]
      [egEcon 1 1 800, egEcon 2 1 800] (by decide)).1
  · exact (c2_removal_join [] [] [] [egStat 1 1 10 0 1 2, egStat 2 1 11 20 2 1]
      [egEcon 1 1 800, egEcon 2 1 800] (by decide)).2.1 _ (by decide)

/-- C4: over one round window, each resolved record is routed into
exactly one of the two per-round lists — into team 1 exactly when its
`teamNumber` equals `1`, into team 2 otherwise — so the two lists are
the two cells of a partition of the window's resolved output and no
record belongs to both. -/
theorem c4_team_routing (ign agents weapons : Table) (ss : List Dict)
    (pool : List EconSlot) (t1 t2 : List Dict) (pool9 : List EconSlot)
    (h : alignWindow ign agents weapons ss pool = (t1, t2, pool9)) :
    t1 = ((windowPairs ss pool).map
          (fun p => resolveRecord ign agents weapons p.1 p.2)).filter
          (fun r => decide (agetD r "teamNumber" = Val.vInt 1))
    ∧ t2 = ((windowPairs ss pool).map
          (fun p => resolveRecord ign agents weapons p.1 p.2)).filter
          (fun r => !decide (agetD r "teamNumber" = Val.vInt 1))
    ∧ (∀ r ∈ t1, agetD r "teamNumber" = Val.vInt 1)
    ∧ (∀ r ∈ t2, agetD r "teamNumber" ≠ Val.vInt 1)
    ∧ ∀ r, r ∈ t1 → r ∉ t2 := by
  rw [alignWindow_characterization] at h
  have h1 : t1 = ((windowPairs ss pool).map
      (fun p => resolveRecord ign agents weapons p.1 p.2)).filter
      (fun r => decide (agetD r "teamNumber" = Val.vInt 1)) := by
    have := congrArg Prod.fst h
    simpa using this.symm
  have h2 : t2 = ((windowPairs ss pool).map
      (fun p => resolveRecord ign agents weapons p.1 p.2)).filter
      (fun r => !decide (agetD r "teamNumber" = Val.vInt 1)) := by
    have := congrArg (fun x => x.2.1) h
    simpa using this.symm
  have hmem1 : ∀ r ∈ t1, agetD r "teamNumber" = Val.vInt 1 := by
    intro r hr
    rw [h1] at hr
    exact of_decide_eq_true (List.mem_filter.mp hr).2
  have hmem2 : ∀ r ∈ t2, agetD r "teamNumber" ≠ Val.vInt 1 := by
    intro r hr
    rw [h2] at hr
    have := (List.mem_filter.mp hr).2
    simpa using this
  exact ⟨h1, h2, hmem1, hmem2, fun r ht1 ht2 => (hmem2 r ht2) (hmem1 r ht1)⟩

theorem c4_team_routing_witness :
    alignWindow (buildTable egMatchEntry.players) (buildTable egForm.agents)
        (buildTable egForm.weapons) [egStat 1 1 10 0 1 2, egStat 2 1 11 20 2 1]
        ([egEcon 1 1 800, egEcon 2 1 800].map EconSlot.avail)
      = (alignWindow (buildTable egMatchEntry.players) (buildTable egForm.agents)
          (buildTable egForm.weapons) [egStat 1 1 10 0 1 2, egStat 2 1 11 20 2 1]
          ([egEcon 1 1 800, egEcon 2 1 800].map EconSlot.avail))
    ∧ ((alignWindow (buildTable egMatchEntry.players) (buildTable egForm.agents)
          (buildTable egForm.weapons) [egStat 1 1 10 0 1 2, egStat 2 1 11 20 2 1]
          ([egEcon 1 1 800, egEcon 2 1 800].map EconSlot.avail)).1
        = ((windowPairs [egStat 1 1 10 0 1 2, egStat 2 1 11 20 2 1]
              ([egEcon 1 1 800, egEcon 2 1 800].map EconSlot.avail)).map
              (fun p => resolveRecord (buildTable egMatchEntry.players)
                (buildTable egForm.agents) (buildTable egForm.weapons) p.1 p.2)).filter
              (fun r => decide (agetD r "teamNumber" = Val.vInt 1))) :=
  ⟨rfl,
    (c4_team_routing (buildTable egMatchEntry.players) (buildTable egForm.agents)
      (buildTable egForm.weapons) [egStat 1 1 10 0 1 2, egStat 2 1 11 20 2 1]
      ([egEcon 1 1 800, egEcon 2 1 800].map EconSlot.avail) _ _ _ rfl).1⟩

theorem aget_resolveRecord (ign agents weapons : Table) (s e : Dict) (k : String) :
    aget (resolveRecord ign agents weapons s e) k =
      if k = "playerId" then none
      else if k = "agentId" then none
      else if k = "weaponId" then none
      else if k = "weaponName" then
        (if truthy (agetD (aupdate e s) "weaponId")
         then some (tlookD weapons (agetD (aupdate e s) "weaponId"))
         else aget (aupdate e s) "weaponName")
      else if k = "agent" then some (tlookD agents (agetD (aupdate e s) "agentId"))
      else if k = "playerIgn" then some (tlookD ign (agetD (aupdate e s) "playerId"))
      else aget (aupdate e s) k := by
  simp only [resolveRecord]
  have hw2 : agetD (aset (aupdate e s) "playerIgn"
      (tlookD ign (agetD (aupdate e s) "playerId"))) "agentId"
      = agetD (aupdate e s) "agentId" := by
    unfold agetD
    rw [aget_aset_ne _ _ _ _ (by decide)]
  have hw3 : agetD (aset (aset (aupdate e s) "playerIgn"
        (tlookD ign (agetD (aupdate e s) "playerId"))) "agent"
        (tlookD agents (agetD (aupdate e s) "agentId"))) "weaponId"
      = agetD (aupdate e s) "weaponId" := by
    unfold agetD
    rw [aget_aset_ne _ _ _ _ (by decide), aget_aset_ne _ _ _ _ (by decide)]
  rw [hw2, hw3]
  by_cases hk1 : k = "playerId"
  · subst hk1
    simp only [if_pos rfl]
    rw [aget_adel_ne _ _ _ (by decide), aget_adel_ne _ _ _ (by decide),
      aget_adel_self]
    simp
  · rw [if_neg hk1]
    by_cases hk2 : k = "agentId"
    · subst hk2
      simp only [if_pos rfl]
      rw [aget_adel_ne _ _ _ (by decide), aget_adel_self]
      simp
    · rw [if_neg hk2]
      by_cases hk3 : k = "weaponId"
      · subst hk3
        simp only [if_pos rfl]
        rw [aget_adel_self]
        simp
      · rw [if_neg hk3]
        rw [aget_adel_ne _ _ _ hk3, aget_adel_ne _ _ _ hk2, aget_adel_ne _ _ _ hk1]
        by_cases hk4 : k = "weaponName"
        · subst hk4
          simp only [if_pos rfl]
          by_cases ht : truthy (agetD (aupdate e s) "weaponId")
          · rw [if_pos ht, if_pos ht, aget_aset_self]
            simp
          · rw [if_neg ht, if_neg ht,
              aget_aset_ne _ _ _ _ (by decide), aget_aset_ne _ _ _ _ (by decide)]
            simp
        · rw [if_neg hk4]
          have hstep : aget (if truthy (agetD (aupdate e s) "weaponId")
              then aset (aset (aset (aupdate e s) "playerIgn"
                  (tlookD ign (agetD (aupdate e s) "playerId"))) "agent"
                  (tlookD agents (agetD (aupdate e s) "agentId"))) "weaponName"
                  (tlookD weapons (agetD (aupdate e s) "weaponId"))
              else aset (aset (aupdate e s) "playerIgn"
                  (tlookD ign (agetD (aupdate e s) "playerId"))) "agent"
                  (tlookD agents (agetD (aupdate e s) "agentId"))) k
              = aget (aset (aset (aupdate e s) "playerIgn"
                  (tlookD ign (agetD (aupdate e s) "playerId"))) "agent"
                  (tlookD agents (agetD (aupdate e s) "agentId"))) k := by
            by_cases ht : truthy (agetD (aupdate e s) "weaponId")
            · rw [if_pos ht, aget_aset_ne _ _ _ _ hk4]
            · rw [if_neg ht]
          rw [hstep]
          by_cases hk5 : k = "agent"
          · subst hk5
            simp only [if_pos rfl]
            rw [aget_aset_self]
            simp
          · rw [if_neg hk5, aget_aset_ne _ _ _ _ hk5]
            by_cases hk6 : k = "playerIgn"
            · subst hk6
              simp only [if_pos rfl]
              rw [aget_aset_self]
              simp
            · rw [if_neg hk6, aget_aset_ne _ _ _ _ hk6]

theorem resolveRecord_weapons_independent (ign agents weapons weapons2 : Table)
    (s e : Dict) (hf : truthy (agetD (aupdate e s) "weaponId") = false) :
    resolveRecord ign agents weapons2 s e = resolveRecord ign agents weapons s e := by
  simp only [resolveRecord]
  have hww : agetD (aset (aset (aupdate e s) "playerIgn"
        (tlookD ign (agetD (aupdate e s) "playerId"))) "agent"
        (tlookD agents (agetD (aset (aupdate e s) "playerIgn"
          (tlookD ign (agetD (aupdate e s) "playerId"))) "agentId"))) "weaponId"
      = agetD (aupdate e s) "weaponId" := by
    unfold agetD
    rw [aget_aset_ne _ _ _ _ (by decide), aget_aset_ne _ _ _ _ (by decide)]
  rw [hww, hf]
  simp

/-- C3: on a matched pair the merge takes the economy record as base with
the stat record's fields overriding; `playerId` is replaced by
`playerIgn` and `agentId` by `agent` through the lookup tables;
`weaponName` is added if and only if the merged `weaponId` is truthy, so
a falsy `weaponId` (0 or null) never consults the weapon table and the
output carries no `weaponName` key; and the three raw id fields are
absent from the output. -/
theorem c3_merge_resolution (ign agents weapons : Table) (s e : Dict)
    (hs : (s.map Prod.fst).Nodup)
    (hwS : hasKeyA s "weaponName" = false)
    (hwE : hasKeyA e "weaponName" = false) :
    hasKeyA (resolveRecord ign agents weapons s e) "playerId" = false
    ∧ hasKeyA (resolveRecord ign agents weapons s e) "agentId" = false
    ∧ hasKeyA (resolveRecord ign agents weapons s e) "weaponId" = false
    ∧ aget (resolveRecord ign agents weapons s e) "playerIgn"
        = some (tlookD ign (agetD (aupdate e s) "playerId"))
    ∧ aget (resolveRecord ign agents weapons s e) "agent"
        = some (tlookD agents (agetD (aupdate e s) "agentId"))
    ∧ (truthy (agetD (aupdate e s) "weaponId") = true →
        aget (resolveRecord ign agents weapons s e) "weaponName"
          = some (tlookD weapons (agetD (aupdate e s) "weaponId")))
    ∧ (truthy (agetD (aupdate e s) "weaponId") = false →
        hasKeyA (resolveRecord ign agents weapons s e) "weaponName" = false
        ∧ ∀ weapons2 : Table,
            resolveRecord ign agents weapons2 s e = resolveRecord ign agents weapons s e)
    ∧ ∀ k : String, k ∉ (["playerId", "agentId", "weaponId",
          "playerIgn", "agent", "weaponName"] : List String) →
        aget (resolveRecord ign agents weapons s e) k
          = if hasKeyA s k then aget s k else aget e k := by
  have hupd : aget (aupdate e s) "weaponName" = aget e "weaponName" := by
    rw [aget_aupdate _ _ _ hs, hwS]
    simp
  refine ⟨?_, ?_, ?_, ?_, ?_, ?_, ?_, ?_⟩
  · unfold hasKeyA
    rw [aget_resolveRecord]
    simp
  · unfold hasKeyA
    rw [aget_resolveRecord]
    simp
  · unfold hasKeyA
    rw [aget_resolveRecord]
    simp
  · rw [aget_resolveRecord]
    simp
  · rw [aget_resolveRecord]
    simp
  · intro ht
    rw [aget_resolveRecord]
    simp [ht]
  · intro hf
    constructor
    · unfold hasKeyA
      rw [aget_resolveRecord]
      simp only [hf]
      simp [hupd]
      cases hcase : aget e "weaponName" with
      | none => simp
      | some v =>
        exfalso
        rw [hasKeyA, hcase] at hwE
        simp at hwE
    · intro weapons2
      exact resolveRecord_weapons_independent ign agents weapons weapons2 s e hf
  · intro k hk
    simp only [List.mem_cons, List.not_mem_nil, or_false] at hk
    push_neg at hk
    obtain ⟨n1, n2, n3, n4, n5, n6⟩ := hk
    rw [aget_resolveRecord]
    rw [if_neg n1, if_neg n2, if_neg n3, if_neg n6, if_neg n5, if_neg n4]
    rw [aget_aupdate _ _ _ hs]

theorem c3_merge_resolution_witness :
    ((egStat 1 1 10 0 1 2).map Prod.fst).Nodup
    ∧ hasKeyA (egStat 1 1 10 0 1 2) "weaponName" = false
    ∧ hasKeyA (egEcon 1 1 800) "weaponName" = false
    ∧ truthy (agetD (aupdate (egEcon 1 1 800) (egStat 1 1 10 0 1 2)) "weaponId") = false
    ∧ aget (resolveRecord (buildTable egMatchEntry.players) (buildTable egForm.agents)
          (buildTable egForm.weapons) (egStat 1 1 10 0 1 2) (egEcon 1 1 800)) "playerIgn"
        = some (tlookD (buildTable egMatchEntry.players)
            (agetD (aupdate (egEcon 1 1 800) (egStat 1 1 10 0 1 2)) "playerId"))
    ∧ hasKeyA (resolveRecord (buildTable egMatchEntry.players) (buildTable egForm.agents)
          (buildTable egForm.weapons) (egStat 1 1 10 0 1 2) (egEcon 1 1 800))
          "weaponName" = false
    ∧ aget (resolveRecord (buildTable egMatchEntry.players) (buildTable egForm.agents)
          (buildTable egForm.weapons) (egStat 1 1 10 0 1 2) (egEcon 1 1 800))
          "loadoutValue"
        = (if hasKeyA (egStat 1 1 10 0 1 2) "loadoutValue"
           then aget (egStat 1 1 10 0 1 2) "loadoutValue"
           else aget (egEcon 1 1 800) "loadoutValue") :=
  ⟨by decide, by decide, by decide, by decide,
   (c3_merge_resolution (buildTable egMatchEntry.players) (buildTable egForm.agents)
      (buildTable egForm.weapons) (egStat 1 1 10 0 1 2) (egEcon 1 1 800)
      (by decide) (by decide) (by decide)).2.2.2.1,
   ((c3_merge_resolution (buildTable egMatchEntry.players) (buildTable egForm.agents)
      (buildTable egForm.weapons) (egStat 1 1 10 0 1 2) (egEcon 1 1 800)
      (by decide) (by decide) (by decide)).2.2.2.2.2.2.1 (by decide)).1,
   (c3_merge_resolution (buildTable egMatchEntry.players) (buildTable egForm.agents)
      (buildTable egForm.weapons) (egStat 1 1 10 0 1 2) (egEcon 1 1 800)
      (by decide) (by decide) (by decide)).2.2.2.2.2.2.2 "loadoutValue" (by decide)⟩

/-- C5: for a located match with an empty rounds list, `csv_rows` returns
exactly one row holding exactly the metadata values in order, and no
header row is emitted even when the header flag is set. -/
theorem c5_zero_rounds_row (form : Form) (i : Nat) (m : MatchEntry) (addHeader : Bool)
    (h1 : locateIndex form = some i)
    (h2 : form.series.matchList[i]? = some m)
    (hrounds : m.rounds = [])
    (hstatus : form.statusCode ≠ some (Val.vInt 500))
    (hreg : (aget (regionDict form) form.series.eventRegionId).isSome = true) :
    csv_rows (ParserState.ready form addHeader) = .ok [[
      RVal.prim form.series.parentEventName, RVal.prim form.series.eventName,
      RVal.prim form.series.startDate,
      RVal.prim (tlookD (regionDict form) form.series.eventRegionId),
      RVal.prim form.series.bestOf, RVal.prim form.series.stage,
      RVal.prim form.series.bracket, RVal.prim form.series.team1Name,
      RVal.prim form.series.team2Name, RVal.prim form.series.team1Score,
      RVal.prim form.series.team2Score, RVal.prim form.matchId,
      RVal.prim m.mapName, RVal.prim m.startDate, RVal.prim m.seriesMatchNumber,
      RVal.prim m.patchId, RVal.prim m.winningTeamNumber, RVal.prim m.team1Score,
      RVal.prim m.team2Score, RVal.prim m.winCondition]] := by
  obtain ⟨t1s, t2s, newEcon, hps⟩ := player_stats_data_isOk (located_eq h1 h2)
  have hgr := get_rounds_eq h1 h2 hps
    (by rw [hrounds]; exact Nat.zero_le _) (by rw [hrounds]; exact Nat.zero_le _)
  rw [hrounds] at hgr
  simp only [augmentRounds] at hgr
  simp only [csv_rows]
  rw [if_neg hstatus, get_match_info_eq h1 h2, hgr]
  simp [metaRow]

theorem c5_zero_rounds_row_witness :
    locateIndex egZeroForm = some 0
    ∧ egZeroForm.series.matchList[0]?
        = some { egMatchEntry with id := Val.vInt 8, rounds := [] }
    ∧ ({ egMatchEntry with id := Val.vInt 8, rounds := [] } : MatchEntry).rounds = []
    ∧ egZeroForm.statusCode ≠ some (Val.vInt 500)
    ∧ (aget (regionDict egZeroForm) egZeroForm.series.eventRegionId).isSome = true
    ∧ csv_rows (ParserState.ready egZeroForm true) = .ok [[
        RVal.prim egZeroForm.series.parentEventName,
        RVal.prim egZeroForm.series.eventName,
        RVal.prim egZeroForm.series.startDate,
        RVal.prim (tlookD (regionDict egZeroForm) egZeroForm.series.eventRegionId),
        RVal.prim egZeroForm.series.bestOf, RVal.prim egZeroForm.series.stage,
        RVal.prim egZeroForm.series.bracket, RVal.prim egZeroForm.series.team1Name,
        RVal.prim egZeroForm.series.team2Name, RVal.prim egZeroForm.series.team1Score,
        RVal.prim egZeroForm.series.team2Score, RVal.prim egZeroForm.matchId,
        RVal.prim ({ egMatchEntry with id := Val.vInt 8, rounds := [] } : MatchEntry).mapName,
        RVal.prim ({ egMatchEntry with id := Val.vInt 8, rounds := [] } : MatchEntry).startDate,
        RVal.prim ({ egMatchEntry with id := Val.vInt 8, rounds := [] } : MatchEntry).seriesMatchNumber,
        RVal.prim ({ egMatchEntry with id := Val.vInt 8, rounds := [] } : MatchEntry).patchId,
        RVal.prim ({ egMatchEntry with id := Val.vInt 8, rounds := [] } : MatchEntry).winningTeamNumber,
        RVal.prim ({ egMatchEntry with id := Val.vInt 8, rounds := [] } : MatchEntry).team1Score,
        RVal.prim ({ egMatchEntry with id := Val.vInt 8, rounds := [] } : MatchEntry).team2Score,
        RVal.prim ({ egMatchEntry with id := Val.vInt 8, rounds := [] } : MatchEntry).winCondition]] :=
  ⟨by decide, by decide, by decide, by decide, by decide,
    c5_zero_rounds_row egZeroForm 0 { egMatchEntry with id := Val.vInt 8, rounds := [] }
      true (by decide) (by decide) (by decide) (by decide) (by decide)⟩

/-- C6 (amended): the header flag is consumed by the first *attempted*
match while the output file does not pre-exist, not by the first
successfully parsed one.  A skipped first match (a payload carrying
`statusCode = 500`) produces zero rows yet consumes the flag, so the run
continues exactly as if the header had already been written and no later
match can emit a header. -/
theorem c6_header_flag_consumed_by_skip (form : Form)
    (hskip : form.statusCode = some (Val.vInt 500)) (os : List FetchOutcome) :
    process_series false (FetchOutcome.payload form :: os) = process_series true os := by
  have hrows : csv_rows (jsonParserInit (FetchOutcome.payload form) (!false)) = .ok [] := by
    simp [jsonParserInit, csv_rows, hskip]
  simp only [process_series, hrows]
  cases h : process_series true os with
  | error e => rfl
  | ok p => simp

theorem c6_header_flag_consumed_by_skip_witness :
    egSkipForm.statusCode = some (Val.vInt 500)
    ∧ process_series false [FetchOutcome.payload egSkipForm, FetchOutcome.payload egForm]
        = process_series true [FetchOutcome.payload egForm] :=
  ⟨rfl, c6_header_flag_consumed_by_skip egSkipForm rfl [FetchOutcome.payload egForm]⟩

/-- C6 (counterexample to the claim as stated): in a run starting with no
pre-existing file, (a) when the first successfully parsed match has zero
rounds it emits no header — and no later match does either, so the run's
rows contain no header row at all; (b) when the first match is skipped
via a `statusCode = 500` payload, the later successfully parsed match
still emits no header; (c) only a first-attempted, successfully parsed
match with rounds emits the header.  The header row is recognisable by
its first cell, the literal key string `"parentEvent"`. -/
theorem c6_header_counterexample :
    (run_driver false [[FetchOutcome.payload egZeroForm, FetchOutcome.payload egForm]]).toOption.map
        (fun rows => (rows.length,
          rows.all (fun r => decide (r.headD (RVal.prim Val.vNull)
            ≠ RVal.prim (Val.vStr "parentEvent")))))
      = some (3, true)
    ∧ (run_driver false [[FetchOutcome.payload egSkipForm, FetchOutcome.payload egForm]]).toOption.map
        (fun rows => (rows.length,
          rows.all (fun r => decide (r.headD (RVal.prim Val.vNull)
            ≠ RVal.prim (Val.vStr "parentEvent")))))
      = some (2, true)
    ∧ (run_driver false [[FetchOutcome.payload egForm]]).toOption.map
        (fun rows => (rows.headD []).headD (RVal.prim Val.vNull))
      = some (RVal.prim (Val.vStr "parentEvent")) := by
  refine ⟨by decide, by decide, by decide⟩

/-- C7 (amended): there is no `try`/`except` at the orchestrator
boundary: any exception raised while processing one match propagates out
of `process_series` and aborts the run — the remaining matches are not
processed and the rows gathered so far are lost. -/
theorem c7_error_propagates (fileExists : Bool) (o : FetchOutcome)
    (os : List FetchOutcome) (e : PyError)
    (h : csv_rows (jsonParserInit o (!fileExists)) = .error e) :
    process_series fileExists (o :: os) = .error e := by
  simp [process_series, h]

theorem c7_error_propagates_witness :
    csv_rows (jsonParserInit FetchOutcome.http500 (!false)) = .error PyError.attributeError
    ∧ process_series false [FetchOutcome.http500, FetchOutcome.payload egForm]
        = .error PyError.attributeError :=
  ⟨rfl, c7_error_propagates false FetchOutcome.http500 [FetchOutcome.payload egForm]
    PyError.attributeError rfl⟩

/-- C7 (counterexample to the claim as stated): a single match whose
fetch soft-fails makes the whole `process_series` call raise — the
following, perfectly valid match is never processed, so per-match
failures are not caught at the orchestrator boundary. -/
theorem c7_no_catch_counterexample :
    process_series false [FetchOutcome.http500, FetchOutcome.payload egForm]
      = .error PyError.attributeError
    ∧ csv_rows (ParserState.ready egForm false) ≠ .error PyError.attributeError := by
  refine ⟨rfl, by decide⟩

/-- C8 (code bug): on a fetch soft-failure (HTTP 500 or missing
`__NEXT_DATA__` script) `jsonParser.__init__` returns before assigning
`self.form`, so the guard `not self.form` in `csv_rows` — evidently
intended to return zero rows for the tossed match — itself raises
`AttributeError`, which propagates uncaught out of `process_series` and
terminates the run instead of skipping the match. -/
theorem c8_soft_failure_crashes :
    jsonParserInit FetchOutcome.http500 true = ParserState.tossed
    ∧ jsonParserInit FetchOutcome.noScript false = ParserState.tossed
    ∧ csv_rows ParserState.tossed = .error PyError.attributeError
    ∧ process_series false [FetchOutcome.noScript, FetchOutcome.payload egForm]
        = .error PyError.attributeError :=
  ⟨rfl, rfl, rfl, rfl⟩

theorem lexLE_total (a b : List Char) : lexLE a b = true ∨ lexLE b a = true := by
  induction a generalizing b with
  | nil => exact Or.inl rfl
  | cons x xs ih =>
    cases b with
    | nil => exact Or.inr rfl
    | cons y ys =>
      by_cases hxy : x = y
      · subst hxy
        rcases ih ys with h | h
        · exact Or.inl (by simp [lexLE, h])
        · exact Or.inr (by simp [lexLE, h])
      · rcases lt_trichotomy x y with hlt | heq | hgt
        · exact Or.inl (by simp [lexLE, hxy, hlt])
        · exact absurd heq hxy
        · exact Or.inr (by simp [lexLE, Ne.symm hxy, hgt])

theorem lexLE_trans {a b c : List Char} (h1 : lexLE a b = true)
    (h2 : lexLE b c = true) : lexLE a c = true := by
  induction a generalizing b c with
  | nil => rfl
  | cons x xs ih =>
    cases b with
    | nil => simp [lexLE] at h1
    | cons y ys =>
      cases c with
      | nil => simp [lexLE] at h2
      | cons z zs =>
        by_cases hxy : x = y
        · subst hxy
          by_cases hyz : x = z
          · subst hyz
            simp only [lexLE, if_pos rfl] at h1 h2 ⊢
            exact ih h1 h2
          · simp only [lexLE, if_pos rfl] at h1
            simp only [lexLE, if_neg hyz] at h2 ⊢
            exact h2
        · by_cases hyz : y = z
          · subst hyz
            simp only [lexLE, if_neg hxy] at h1 ⊢
            exact h1
          · simp only [lexLE, if_neg hxy] at h1
            simp only [lexLE, if_neg hyz] at h2
            have hlt : x < z := lt_trans (of_decide_eq_true h1) (of_decide_eq_true h2)
            have hxz : x ≠ z := ne_of_lt hlt
            simp [lexLE, hxz, hlt]

instance : IsTotal (List Char) linkRel :=
  ⟨fun a b => lexLE_total (afterLastEq a) (afterLastEq b)⟩

instance : IsTrans (List Char) linkRel :=
  ⟨fun _ _ _ h1 h2 => lexLE_trans h1 h2⟩

/-- C9 (amended): `process_series` sorts the match links ascending by the
substring after the last `'='` compared *as a string* (lexicographically
by code point), and the sorted list is a permutation of the input.
Numeric ascending order is obtained only when the key strings compare
the same way numerically and lexicographically. -/
theorem c9_sortLinks_sorted_lex (links : List (List Char)) :
    (sortLinks links).Sorted linkRel ∧ (sortLinks links).Perm links :=
  ⟨List.sorted_insertionSort linkRel links, List.perm_insertionSort linkRel links⟩

/-- C9 (counterexample to the claim as stated): two links whose trailing
query-parameter values are the numbers 2 and 10 are sorted with `10`
first, because `"10" < "2"` as strings — the sort is not ascending in
the numeric value. -/
theorem c9_numeric_sort_counterexample :
    sortLinks ["/series/77?match=2".data, "/series/77?match=10".data]
      = ["/series/77?match=10".data, "/series/77?match=2".data]
    ∧ afterLastEq "/series/77?match=2".data = "2".data
    ∧ afterLastEq "/series/77?match=10".data = "10".data
    ∧ (2 : Nat) < 10 :=
  ⟨by decide, by decide, by decide, by decide⟩

/-- C10 (amended): the raw payload is *not* left unchanged by the parse
pipeline: `get_rounds` rewrites the located match's round dicts in place
(each gains `team1Players`/`team2Players` keys) and `player_stats_data`
rewrites every matched economy dict to the merged record, so for any
match with at least one round whose round dict does not already carry
`team1Players`, the payload after `get_rounds` differs from the payload
before. -/
theorem c10_get_rounds_mutates (form : Form) (i : Nat) (m : MatchEntry)
    (t1s t2s : List (List Dict)) (newEcon : List Dict)
    (h1 : locateIndex form = some i)
    (h2 : form.series.matchList[i]? = some m)
    (hps : player_stats_data form = .ok ((t1s, t2s), newEcon))
    (hl1 : m.rounds.length ≤ t1s.length)
    (hl2 : m.rounds.length ≤ t2s.length)
    (hr : m.rounds ≠ [])
    (hkey : aget (m.rounds.headD []) "team1Players" = none) :
    get_rounds form = .ok (augmentRounds m.rounds t1s t2s,
        setForm form i m (augmentRounds m.rounds t1s t2s) newEcon)
    ∧ aget ((augmentRounds m.rounds t1s t2s).headD []) "team1Players" ≠ none
    ∧ setForm form i m (augmentRounds m.rounds t1s t2s) newEcon ≠ form := by
  have hhead : aget ((augmentRounds m.rounds t1s t2s).headD []) "team1Players" ≠ none := by
    cases hm : m.rounds with
    | nil => exact absurd hm hr
    | cons r rs =>
      simp only [hm, augmentRounds, List.headD_cons]
      rw [aget_aset_ne _ _ _ _ (by decide), aget_aset_self]
      simp
  refine ⟨get_rounds_eq h1 h2 hps hl1 hl2, hhead, ?_⟩
  intro heq
  have hml : (setForm form i m (augmentRounds m.rounds t1s t2s) newEcon).series.matchList
      = form.series.matchList := congrArg (fun f => f.series.matchList) heq
  have hi : i < form.series.matchList.length := by
    rcases List.getElem?_eq_some.mp h2 with ⟨hi, -⟩
    exact hi
  have hset : (form.series.matchList.set i
        { m with rounds := augmentRounds m.rounds t1s t2s })[i]?
      = some { m with rounds := augmentRounds m.rounds t1s t2s } :=
    List.getElem?_set_self hi
  rw [show (form.series.matchList.set i
      { m with rounds := augmentRounds m.rounds t1s t2s })
      = (setForm form i m (augmentRounds m.rounds t1s t2s) newEcon).series.matchList
      from rfl, hml, h2] at hset
  have hrounds_eq : m.rounds = augmentRounds m.rounds t1s t2s := by
    have := Option.some.inj hset
    exact congrArg MatchEntry.rounds this.symm ▸ congrArg MatchEntry.rounds this
  have : aget (m.rounds.headD []) "team1Players"
      = aget ((augmentRounds m.rounds t1s t2s).headD []) "team1Players" := by
    rw [← hrounds_eq]
  rw [hkey] at this
  exact hhead this.symm

theorem c10_get_rounds_mutates_witness :
    locateIndex egForm = some 0
    ∧ egForm.series.matchList[0]? = some egMatchEntry
    ∧ player_stats_data egForm = .ok ((egPSD.1.1, egPSD.1.2), egPSD.2)
    ∧ egMatchEntry.rounds.length ≤ egPSD.1.1.length
    ∧ egMatchEntry.rounds.length ≤ egPSD.1.2.length
    ∧ egMatchEntry.rounds ≠ []
    ∧ aget (egMatchEntry.rounds.headD []) "team1Players" = none
    ∧ setForm egForm 0 egMatchEntry
        (augmentRounds egMatchEntry.rounds egPSD.1.1 egPSD.1.2) egPSD.2 ≠ egForm :=
  ⟨by decide, by decide, by decide, by decide, by decide, by decide, by decide,
    (c10_get_rounds_mutates egForm 0 egMatchEntry egPSD.1.1 egPSD.1.2 egPSD.2
      (by decide) (by decide) (by decide) (by decide) (by decide) (by decide)
      (by decide)).2.2⟩

/-- C10 (counterexample to the claim as stated): on the concrete example
payload `get_rounds` succeeds and returns a payload different from the
one it started from — `self.form` is not immutable under the parse
pipeline. -/
theorem c10_mutation_counterexample :
    (get_rounds egForm).toOption.map Prod.snd ≠ some egForm
    ∧ (get_rounds egForm).toOption.map Prod.snd ≠ none :=
  ⟨by decide, by decide⟩
